import Mathlib

/-!
Verification of the core sampling routines of the ApproximateManifoldSampling
repository (`ConstrainedRWM.py` and `TangentialHug.py`).

The Python code works with numpy arrays of floats.  We embed it shallowly over
exact rationals (ℚ): points of the ambient space are functions `Fin nn → ℚ`,
Jacobians are `Matrix (Fin m) (Fin nn) ℚ`.  Constraint and Jacobian
evaluations in the source may raise a `ValueError` (numpy overflow promoted to
an error); we model a fallible evaluation as an `Option`-valued function,
`none` standing for the raised error.  The projector-equivalence development
for `TangentialHug.py` is over ℝ, since it is a statement about exact real
arithmetic (orthogonal projections, QR factorisations).
-/

namespace AMS

open Matrix

/-- Norm order used by the samplers: `norm_ord ∈ [2, inf]`
(asserted at the top of `zappa_sampling_storecomps_rattle_manifold`). -/
inductive NormOrd where
  | two : NormOrd
  | infty : NormOrd
deriving DecidableEq, Repr

/-- `‖v‖ ≥ t`, in the norm of order `ord`, expressed without square roots:
for `t ≤ 0` the inequality always holds (norms are nonnegative), and for
`t > 0` we have `‖v‖₂ ≥ t ↔ t² ≤ Σ vᵢ²` and `‖v‖_∞ ≥ t ↔ ∃ i, t ≤ |vᵢ|`.
This models `numpy.linalg.norm(v, ord) >= t` exactly over the rationals. -/
def normGe {k : ℕ} (ord : NormOrd) (v : Fin k → ℚ) (t : ℚ) : Bool :=
  match ord with
  | .two => decide (t ≤ 0 ∨ t ^ 2 ≤ dotProduct v v)
  | .infty => decide (t ≤ 0 ∨ ∃ i, t ≤ |v i|)

/-- The manifold capability consumed by the samplers (`Manifolds.py` base
class): `q` is the constraint, `J` the Jacobian at a point (the source also
uses `manifold.Q(x)` which is `J(x).T`), `logη` the log-density on the
manifold.  `q` and `J` return `none` when the evaluation raises a
`ValueError`; `logη` is total (the spec: it "returns negative infinity rather
than failing", and the samplers never guard it). -/
structure EmbManifold (m nn : ℕ) where
  q : (Fin nn → ℚ) → Option (Fin m → ℚ)
  J : (Fin nn → ℚ) → Option (Matrix (Fin m) (Fin nn) ℚ)
  logη : (Fin nn → ℚ) → ℚ

/-- `numpy.linalg.solve(A, b)` / `scipy.linalg.solve(A, b)` modelled by
Cramer's rule: for invertible `A` this is `A⁻¹ ⬝ b` (and the source only
calls it after checking the matrix is nonsingular). -/
def npSolve {k : ℕ} (A : Matrix (Fin k) (Fin k) ℚ) (b : Fin k → ℚ) : Fin k → ℚ :=
  (A.det)⁻¹ • (A.adjugate.mulVec b)

/-- Full return value of the Newton projection loop, with two ghost fields
used only in theorem statements: `jacEvals` counts the Jacobian evaluations
that completed successfully (calls of `manifold.Q(·)` that did not raise),
and `singFail` records whether the return was the singular-Gram-matrix
failure branch.  The function the source returns is `(a, flag, iters)`. -/
structure ZapAux (m : ℕ) where
  a : Fin m → ℚ
  flag : Bool
  iters : ℕ
  jacEvals : ℕ
  singFail : Bool
deriving DecidableEq, Repr

/-- The `while` loop of `project_zappa_manifold` (ConstrainedRWM.py lines
123-146).  The loop variable `i` counts solve iterations; `pv` is
`projected_value`, maintained as `manifold.q(z - Q@a)`.  The loop body runs
at most `maxiter + 1` times because `i` increases by one per pass and the
loop returns as soon as `i > maxiter`; we therefore recurse structurally on
`fuel`, called with `fuel = maxiter + 1 - i ≥ 1`.  The `fuel = 0` branch is
unreachable under that invariant (it mimics a failure return so that the
accounting invariants hold vacuously there).
The source's numerically-singular test `cond(GramMatrix) < 1/eps` (proceed
when the condition number is finite/small) idealises over exact arithmetic
to `GramMatrix.det ≠ 0`. -/
def projectLoop {m nn : ℕ} (M : EmbManifold m nn) (z : Fin nn → ℚ)
    (Q : Matrix (Fin nn) (Fin m) ℚ) (tol : ℚ) (maxiter : ℕ) (ord : NormOrd) :
    (fuel : ℕ) → (a : Fin m → ℚ) → (i : ℕ) → (pv : Fin m → ℚ) →
    (jacEvals : ℕ) → ZapAux m
  | 0, _, i, _, jacEvals => ⟨0, false, i, jacEvals, false⟩
  | fuel + 1, a, i, pv, jacEvals =>
    if normGe ord pv tol = false then
      -- while-condition `la.norm(projected_value, ord) >= tol` fails: success
      ⟨a, true, i, jacEvals, false⟩
    else
      match M.J (z - Q.mulVec a) with
      | none =>
        -- `Jproj = manifold.Q(z - Q@a).T` raised: `return zeros(..), 0, i`
        ⟨0, false, i, jacEvals, false⟩
      | some Jproj =>
        let GramMatrix := Jproj * Q
        if GramMatrix.det ≠ 0 then
          let Δa := npSolve GramMatrix pv
          let a' := a + Δa
          let i' := i + 1
          if maxiter < i' then
            -- `if i > maxiter: return zeros(..), 0, i`
            ⟨0, false, i', jacEvals + 1, false⟩
          else
            match M.q (z - Q.mulVec a') with
            | none =>
              -- re-evaluation of the constraint raised: `return zeros(..), 0, i`
              ⟨0, false, i', jacEvals + 1, false⟩
            | some pv' => projectLoop M z Q tol maxiter ord fuel a' i' pv' (jacEvals + 1)
        else
          -- singular Gram matrix: `return zeros(..), 0, i`
          ⟨0, false, i, jacEvals + 1, true⟩

/-- `project_zappa_manifold` with the ghost accounting fields
(ConstrainedRWM.py lines 110-146).  Initialisation: `a, flag, i = zeros, 1, 0`,
then `projected_value = manifold.q(z - Q@a)`; if that raises,
`return a, 0, i` (note: this failure returns the *current* `a`, which is
still the zero vector). -/
def projectZappaAux {m nn : ℕ} (M : EmbManifold m nn) (z : Fin nn → ℚ)
    (Q : Matrix (Fin nn) (Fin m) ℚ) (tol : ℚ) (maxiter : ℕ) (ord : NormOrd) :
    ZapAux m :=
  match M.q (z - Q.mulVec 0) with
  | none => ⟨0, false, 0, 0, false⟩
  | some pv => projectLoop M z Q tol maxiter ord (maxiter + 1) 0 0 pv 0

/-- `project_zappa_manifold(manifold, z, Q, tol, maxiter, norm_ord)`:
returns `(a, flag, i)` — the coefficients, the success flag (`1 = true`),
and the loop counter `i`. -/
def project_zappa_manifold {m nn : ℕ} (M : EmbManifold m nn) (z : Fin nn → ℚ)
    (Q : Matrix (Fin nn) (Fin m) ℚ) (tol : ℚ) (maxiter : ℕ) (ord : NormOrd) :
    (Fin m → ℚ) × Bool × ℕ :=
  let r := projectZappaAux M z Q tol maxiter ord
  (r.a, r.flag, r.iters)

/-- `linear_project(v, J) = J.T @ solve(J@J.T, J@v)` as defined inside
`zappa_sampling_storecomps_rattle_manifold` (ConstrainedRWM.py lines 42-45). -/
def linear_project {m nn : ℕ} (v : Fin nn → ℚ) (J : Matrix (Fin m) (Fin nn) ℚ) :
    Fin nn → ℚ :=
  Jᵀ.mulVec (npSolve (J * Jᵀ) (J.mulVec v))

/-- Return value of `constrained_rwm_step`: position, velocity, Jacobian,
convergence flag, and Jacobian-evaluation count. -/
structure StepResult (m nn : ℕ) where
  x : Fin nn → ℚ
  v : Fin nn → ℚ
  J : Matrix (Fin m) (Fin nn) ℚ
  flag : Bool
  ngrad : ℕ
deriving DecidableEq

/-- `constrained_rwm_step(x, v, tol, maxiter, Jx, norm_ord)`
(ConstrainedRWM.py lines 48-67): project the momentum onto the tangent space
at `x`, take the unconstrained step, Newton-project back via
`project_zappa_manifold` with `Q = Jx.T`, recompute the Jacobian at the
landing point (a raised `ValueError` there returns the original state with
flag `0`), and project the displacement `y - x` onto the tangent space at
`y`. -/
def constrained_rwm_step {m nn : ℕ} (M : EmbManifold m nn) (x v : Fin nn → ℚ)
    (tol : ℚ) (maxiter : ℕ) (Jx : Matrix (Fin m) (Fin nn) ℚ) (ord : NormOrd) :
    StepResult m nn :=
  let v_projected := v - linear_project v Jx
  let x_unconstr := x + v_projected
  let r := project_zappa_manifold M x_unconstr Jxᵀ tol maxiter ord
  let y := x_unconstr - Jxᵀ.mulVec r.1
  match M.J y with
  | none => ⟨x, v, Jx, false, r.2.2 + 1⟩
  | some Jy =>
    let v_would_have := y - x
    let v_projected_endposition := v_would_have - linear_project v_would_have Jy
    ⟨y, v_projected_endposition, Jy, r.2.1, r.2.2 + 1⟩

/-- Return value of `constrained_leapfrog`: state triple, success flag, and
accumulated Jacobian-evaluation count. -/
structure LFResult (m nn : ℕ) where
  x : Fin nn → ℚ
  v : Fin nn → ℚ
  J : Matrix (Fin m) (Fin nn) ℚ
  success : Bool
  njac : ℕ
deriving DecidableEq

/-- The `for _ in range(B)` loop of `constrained_leapfrog`
(ConstrainedRWM.py lines 74-85), recursing on the remaining step count.
`x0, v0, J0` are the loop-invariant originals returned on failure;
`acc` accumulates `n_jacobian_evaluations`. -/
def leapfrogLoop {m nn : ℕ} (M : EmbManifold m nn) (tol rev_tol : ℚ)
    (maxiter : ℕ) (ord : NormOrd) (x0 v0 : Fin nn → ℚ)
    (J0 : Matrix (Fin m) (Fin nn) ℚ) :
    (B : ℕ) → (x v : Fin nn → ℚ) → (J : Matrix (Fin m) (Fin nn) ℚ) →
    (acc : ℕ) → LFResult m nn
  | 0, x, v, J, acc => ⟨x, v, J, true, acc⟩
  | B + 1, x, v, J, acc =>
    let f := constrained_rwm_step M x v tol maxiter J ord
    let b := constrained_rwm_step M f.x (-f.v) tol maxiter f.J ord
    let acc' := acc + (f.ngrad + b.ngrad)
    if f.flag = false ∨ b.flag = false ∨ normGe ord (b.x - x) rev_tol = true then
      ⟨x0, v0, J0, false, acc'⟩
    else
      leapfrogLoop M tol rev_tol maxiter ord x0 v0 J0 B f.x f.v f.J acc'

/-- `constrained_leapfrog(x0, v0, J0, B, tol, rev_tol, maxiter, norm_ord)`
(ConstrainedRWM.py lines 69-85). -/
def constrained_leapfrog {m nn : ℕ} (M : EmbManifold m nn)
    (x0 v0 : Fin nn → ℚ) (J0 : Matrix (Fin m) (Fin nn) ℚ) (B : ℕ)
    (tol rev_tol : ℚ) (maxiter : ℕ) (ord : NormOrd) : LFResult m nn :=
  leapfrogLoop M tol rev_tol maxiter ord x0 v0 J0 B x0 v0 J0 0

/-- One forward/backward/reversibility check of the leapfrog loop succeeds
from the state `(x, v, J)`.  This names the failure condition of
ConstrainedRWM.py line 78 for use in theorem statements. -/
def lfStepOK {m nn : ℕ} (M : EmbManifold m nn) (tol rev_tol : ℚ)
    (maxiter : ℕ) (ord : NormOrd) (x v : Fin nn → ℚ)
    (J : Matrix (Fin m) (Fin nn) ℚ) : Bool :=
  let f := constrained_rwm_step M x v tol maxiter J ord
  let b := constrained_rwm_step M f.x (-f.v) tol maxiter f.J ord
  ¬(f.flag = false ∨ b.flag = false ∨ normGe ord (b.x - x) rev_tol = true)

/-- The forward state after one accepted leapfrog iteration from `(x, v, J)`. -/
def lfNext {m nn : ℕ} (M : EmbManifold m nn) (tol : ℚ) (maxiter : ℕ)
    (ord : NormOrd) (x v : Fin nn → ℚ) (J : Matrix (Fin m) (Fin nn) ℚ) :
    (Fin nn → ℚ) × (Fin nn → ℚ) × Matrix (Fin m) (Fin nn) ℚ :=
  let f := constrained_rwm_step M x v tol maxiter J ord
  (f.x, f.v, f.J)

/-- The leapfrog trajectory: state after `k` accepted iterations from the
start `(x, v, J)`. -/
def lfTraj {m nn : ℕ} (M : EmbManifold m nn) (tol : ℚ) (maxiter : ℕ)
    (ord : NormOrd) (x v : Fin nn → ℚ) (J : Matrix (Fin m) (Fin nn) ℚ) :
    ℕ → (Fin nn → ℚ) × (Fin nn → ℚ) × Matrix (Fin m) (Fin nn) ℚ
  | 0 => (x, v, J)
  | k + 1 =>
    let s := lfTraj M tol maxiter ord x v J k
    lfNext M tol maxiter ord s.1 s.2.1 s.2.2

/-- Mutable state of the sampler loop of
`zappa_sampling_storecomps_rattle_manifold` (ConstrainedRWM.py lines 19-44):
the current point `x`, its stored log-density `logeta_x` and Jacobian `Jx`,
the `samples` array, the `ACCEPTED` array, and the two entries of `N_EVALS`.
`samples` and `accepted` are modelled as total maps from ℕ, written only at
the indices the source writes. -/
structure CRWMState (m nn : ℕ) where
  x : Fin nn → ℚ
  logeta_x : ℚ
  Jx : Matrix (Fin m) (Fin nn) ℚ
  samples : ℕ → Fin nn → ℚ
  accepted : ℕ → ℚ
  jacEvals : ℕ
  densityEvals : ℕ

/-- The index written by `ACCEPTED[i - 1]` for loop index `0 ≤ i < N`:
numpy's negative indexing sends `i = 0` to the last cell `N - 1`. -/
def accIdx (N i : ℕ) : ℕ :=
  if i = 0 then N - 1 else i - 1

/-- One iteration (loop index `i`) of the C-RWM sampling loop
(ConstrainedRWM.py lines 87-106).  `vs` is the stream of `randn(m + d)`
draws, `logu` the precomputed `log(rand(n))` array, `δ = T / B` the step
size. -/
def crwmIter {m nn : ℕ} (M : EmbManifold m nn) (B : ℕ) (tol rev_tol : ℚ)
    (maxiter : ℕ) (ord : NormOrd) (N : ℕ) (δ : ℚ) (vs : ℕ → Fin nn → ℚ)
    (logu : ℕ → ℚ) (i : ℕ) (st : CRWMState m nn) : CRWMState m nn :=
  let v := δ • vs i
  let r := constrained_leapfrog M st.x v st.Jx B tol rev_tol maxiter ord
  let jacEvals' := st.jacEvals + r.njac
  if r.success then
    let logηp := M.logη r.x
    if logu i ≤ logηp - st.logeta_x - dotProduct r.v r.v / 2 + dotProduct v v / 2 then
      -- Accept
      { x := r.x, logeta_x := logηp, Jx := r.J,
        samples := Function.update st.samples i r.x,
        accepted := Function.update st.accepted (accIdx N i) 1,
        jacEvals := jacEvals', densityEvals := st.densityEvals + 1 }
    else
      -- Reject
      { st with samples := Function.update st.samples i st.x,
                accepted := Function.update st.accepted (accIdx N i) 0,
                jacEvals := jacEvals', densityEvals := st.densityEvals + 1 }
  else
    -- Reject (trajectory failed)
    { st with samples := Function.update st.samples i st.x,
              accepted := Function.update st.accepted (accIdx N i) 0,
              jacEvals := jacEvals' }

/-- The sampler state before the loop body runs for index `k`
(equivalently: after `k` completed iterations), given the initial Jacobian
`J0 = manifold.J(x0)` and initial density value `logη(x0)`
(ConstrainedRWM.py lines 19-44: `samples[0, :] = x`, both counters start at
1 after the initial evaluations, `ACCEPTED = zeros(n)`). -/
def crwmStateAt {m nn : ℕ} (M : EmbManifold m nn) (B : ℕ) (tol rev_tol : ℚ)
    (maxiter : ℕ) (ord : NormOrd) (N : ℕ) (δ : ℚ) (vs : ℕ → Fin nn → ℚ)
    (logu : ℕ → ℚ) (x0 : Fin nn → ℚ) (J0 : Matrix (Fin m) (Fin nn) ℚ) :
    ℕ → CRWMState m nn
  | 0 =>
    { x := x0, logeta_x := M.logη x0, Jx := J0,
      samples := Function.update (fun _ _ => 0) 0 x0,
      accepted := fun _ => 0, jacEvals := 1, densityEvals := 1 }
  | k + 1 =>
    crwmIter M B tol rev_tol maxiter ord N δ vs logu k
      (crwmStateAt M B tol rev_tol maxiter ord N δ vs logu x0 J0 k)

/-- `zappa_sampling_storecomps_rattle_manifold(x0, manifold, n, T, B, ...)`
(ConstrainedRWM.py lines 7-107): run the loop for all `N` iterations and
return `(samples, N_EVALS, ACCEPTED)`.  The initial Jacobian evaluation
`Jx = compute_J(x)` is unguarded in the source — if it raises, the whole
call fails before the loop; this is the `none` case. -/
def zappa_sampling_storecomps_rattle_manifold {m nn : ℕ}
    (M : EmbManifold m nn) (x0 : Fin nn → ℚ) (N : ℕ) (T : ℚ) (B : ℕ)
    (tol rev_tol : ℚ) (maxiter : ℕ) (ord : NormOrd)
    (vs : ℕ → Fin nn → ℚ) (logu : ℕ → ℚ) :
    Option ((ℕ → Fin nn → ℚ) × (ℕ × ℕ) × (ℕ → ℚ)) :=
  match M.J x0 with
  | none => none
  | some J0 =>
    let δ := T / B
    let st := crwmStateAt M B tol rev_tol maxiter ord N δ vs logu x0 J0 N
    some (st.samples, (st.jacEvals, st.densityEvals), st.accepted)

/-! ### The THUG sampler (`TangentialHug.py`) -/

/-- The "squeeze" of the drawn velocity (TangentialHug.py line 102):
`v0 = v0s - α * project(v0s, safe_jac(x0))`.  `project` is the selected
projector policy. -/
def squeeze {m nn : ℕ} (α : ℚ) (project : (Fin nn → ℚ) → Matrix (Fin m) (Fin nn) ℚ → (Fin nn → ℚ))
    (v0s : Fin nn → ℚ) (J : Matrix (Fin m) (Fin nn) ℚ) : Fin nn → ℚ :=
  v0s - α • project v0s J

/-- The "unsqueeze" of the post-bounce velocity (TangentialHug.py line 111):
`v = v + (α / (1 - α)) * project(v, safe_jac(x))`. -/
def unsqueeze {m nn : ℕ} (α : ℚ) (project : (Fin nn → ℚ) → Matrix (Fin m) (Fin nn) ℚ → (Fin nn → ℚ))
    (v : Fin nn → ℚ) (J : Matrix (Fin m) (Fin nn) ℚ) : Fin nn → ℚ :=
  v + (α / (1 - α)) • project v J

/-- The `for _ in range(B)` bounce loop of THUG (TangentialHug.py lines
106-109): a half position step, a specular reflection of the velocity off
the local normal space, another half position step.  `jac` is the (safe)
Jacobian function; a `none` from it is the uncaught `ValueError` raised by
`safe_jacobian_function`, which aborts the whole run (`none` propagates). -/
def bounceLoop {m nn : ℕ} (δ : ℚ)
    (jac : (Fin nn → ℚ) → Option (Matrix (Fin m) (Fin nn) ℚ))
    (project : (Fin nn → ℚ) → Matrix (Fin m) (Fin nn) ℚ → (Fin nn → ℚ)) :
    (B : ℕ) → (x v : Fin nn → ℚ) → Option ((Fin nn → ℚ) × (Fin nn → ℚ))
  | 0, x, v => some (x, v)
  | B + 1, x, v =>
    let x1 := x + (δ / 2) • v
    match jac x1 with
    | none => none
    | some J =>
      let v1 := v - (2 : ℚ) • project v J
      let x2 := x1 + (δ / 2) • v1
      bounceLoop δ jac project B x2 v1

/-- `log q.logpdf(v)` where `q = MVN(mean=0, cov=I)` (TangentialHug.py line
97): equals `C - ‖v‖²/2`, where `C = -(n/2)·log(2π)` is the normalising
constant — an irrational number, so it is kept as an abstract parameter
(it cancels in the acceptance ratio). -/
def mvnLogpdf {nn : ℕ} (C : ℚ) (v : Fin nn → ℚ) : ℚ :=
  C - dotProduct v v / 2

/-- One iteration of the THUG loop (TangentialHug.py lines 100-118), given
the drawn velocity `v0s` and the iteration's `logu` draw.  Returns
`(appended sample row, new x0, accept flag)`, or `none` when a safe-mode
Jacobian `ValueError` propagates (no `try/except` surrounds the loop body
in the source, so the exception escapes `THUG`). -/
def thugIter {m nn : ℕ} (T : ℚ) (B : ℕ) (α : ℚ)
    (logpi : (Fin nn → ℚ) → ℚ)
    (jac : (Fin nn → ℚ) → Option (Matrix (Fin m) (Fin nn) ℚ))
    (project : (Fin nn → ℚ) → Matrix (Fin m) (Fin nn) ℚ → (Fin nn → ℚ))
    (C : ℚ) (v0s : Fin nn → ℚ) (logu : ℚ) (x0 : Fin nn → ℚ) :
    Option ((Fin nn → ℚ) × (Fin nn → ℚ) × Bool) :=
  match jac x0 with
  | none => none
  | some J0 =>
    let v0 := squeeze α project v0s J0
    let δ := T / (B : ℚ)
    match bounceLoop δ jac project B x0 v0 with
    | none => none
    | some (x, v) =>
      match jac x with
      | none => none
      | some Jend =>
        let vu := unsqueeze α project v Jend
        if logu ≤ logpi x + mvnLogpdf C vu - logpi x0 - mvnLogpdf C v0s then
          some (x, x, true)
        else
          some (x0, x0, false)

/-- Modelled from the spec: the THUG iteration with the squeeze and
unsqueeze steps removed, "so the trajectory depends only on the
bounce-reflection integrator" applied to the raw Gaussian draw `v0s`
(spec §8, degenerate-squeeze behaviour).  Used only as the comparison
point of the `α = 0` claim. -/
def thugIterBounceOnly {m nn : ℕ} (T : ℚ) (B : ℕ)
    (logpi : (Fin nn → ℚ) → ℚ)
    (jac : (Fin nn → ℚ) → Option (Matrix (Fin m) (Fin nn) ℚ))
    (project : (Fin nn → ℚ) → Matrix (Fin m) (Fin nn) ℚ → (Fin nn → ℚ))
    (C : ℚ) (v0s : Fin nn → ℚ) (logu : ℚ) (x0 : Fin nn → ℚ) :
    Option ((Fin nn → ℚ) × (Fin nn → ℚ) × Bool) :=
  match jac x0 with
  | none => none
  | some _ =>
    let δ := T / (B : ℚ)
    match bounceLoop δ jac project B x0 v0s with
    | none => none
    | some (x, v) =>
      match jac x with
      | none => none
      | some _ =>
        if logu ≤ logpi x + mvnLogpdf C v - logpi x0 - mvnLogpdf C v0s then
          some (x, x, true)
        else
          some (x0, x0, false)

/-- The main loop of `THUG(x0, T, B, N, α, logpi, jac, ...)`
(TangentialHug.py lines 99-119): `N` iterations, appending one row per
iteration and recording `acceptances[i] ∈ {0, 1}`; an uncaught Jacobian
`ValueError` (the `none` of `thugIter`) aborts the entire call, losing all
rows.  `vs` and `us` are the `rng.normal` and `log(rng.uniform())` streams;
`i` is the current loop index. -/
def thugRun {m nn : ℕ} (T : ℚ) (B : ℕ) (α : ℚ)
    (logpi : (Fin nn → ℚ) → ℚ)
    (jac : (Fin nn → ℚ) → Option (Matrix (Fin m) (Fin nn) ℚ))
    (project : (Fin nn → ℚ) → Matrix (Fin m) (Fin nn) ℚ → (Fin nn → ℚ))
    (C : ℚ) (vs : ℕ → Fin nn → ℚ) (us : ℕ → ℚ) :
    (N : ℕ) → (x0 : Fin nn → ℚ) → (acc : ℕ → ℚ) → (i : ℕ) →
    Option (List (Fin nn → ℚ) × (ℕ → ℚ))
  | 0, _, acc, _ => some ([], acc)
  | N + 1, x0, acc, i =>
    match thugIter T B α logpi jac project C (vs i) (us i) x0 with
    | none => none
    | some (row, x0', flag) =>
      match thugRun T B α logpi jac project C vs us N x0'
          (Function.update acc i (if flag then 1 else 0)) (i + 1) with
      | none => none
      | some (rows, accf) => some (row :: rows, accf)

/-- `THUG(x0, T, B, N, α, logpi, jac, method, rng, safe=True)`: the full
sampler in safe mode.  `none` models the run dying with the uncaught
`ValueError` of `safe_jacobian_function`. -/
def THUG {m nn : ℕ} (x0 : Fin nn → ℚ) (T : ℚ) (B N : ℕ) (α : ℚ)
    (logpi : (Fin nn → ℚ) → ℚ)
    (jac : (Fin nn → ℚ) → Option (Matrix (Fin m) (Fin nn) ℚ))
    (project : (Fin nn → ℚ) → Matrix (Fin m) (Fin nn) ℚ → (Fin nn → ℚ))
    (C : ℚ) (vs : ℕ → Fin nn → ℚ) (us : ℕ → ℚ) :
    Option (List (Fin nn → ℚ) × (ℕ → ℚ)) :=
  thugRun T B α logpi jac project C vs us N x0 (fun _ => 0) 0

/-! ### THUG projector policies over exact real arithmetic
(TangentialHug.py lines 61-85).  The claims about them are statements of
exact linear algebra, so this part of the embedding is over ℝ.  The
external routines are modelled by their contracts: `scipy.linalg.qr(J.T,
mode='economic')` returns `Q` with orthonormal columns and `R` with
`J.T = Q R`; `numpy.linalg.solve(A, b)` returns `A⁻¹ b`;
`scipy.linalg.lstsq(J.T, v)[0]` returns a least-squares solution `w`, which
satisfies the normal equations `J (J.T w) = J v`. -/

namespace Thug

/-- `numpy.linalg.solve` over ℝ. -/
noncomputable def npSolveR {k : ℕ} (A : Matrix (Fin k) (Fin k) ℝ) (b : Fin k → ℝ) :
    Fin k → ℝ :=
  A⁻¹.mulVec b

/-- `qr_project(v, J) = Q.dot(Q.T.dot(v))` where `Q, _ = qr(J.T,
mode='economic')`; the QR factor is passed explicitly, constrained by its
contract in the theorems. -/
def qr_project {n r : ℕ} (v : Fin n → ℝ) (Q : Matrix (Fin n) (Fin r) ℝ) :
    Fin n → ℝ :=
  Q.mulVec (Qᵀ.mulVec v)

/-- `linear_project(v, J) = J.T.dot(solve(J.dot(J.T), J.dot(v)))`. -/
noncomputable def linear_project {m n : ℕ} (v : Fin n → ℝ)
    (J : Matrix (Fin m) (Fin n) ℝ) : Fin n → ℝ :=
  Jᵀ.mulVec (npSolveR (J * Jᵀ) (J.mulVec v))

/-- `lstsq_project(v, J) = J.T.dot(lstsq(J.T, v)[0])`; the least-squares
solution `w` is passed explicitly, constrained by the normal equations in
the theorems. -/
def lstsq_project {m n : ℕ} (w : Fin m → ℝ) (J : Matrix (Fin m) (Fin n) ℝ) :
    Fin n → ℝ :=
  Jᵀ.mulVec w

/-- `project_2d(v, g) = g_hat * (g_hat @ v)` with `g_hat = g / norm(g)`
(the Euclidean norm, a real square root). -/
noncomputable def project_2d {n : ℕ} (v g : Fin n → ℝ) : Fin n → ℝ :=
  let g_hat := fun j => g j / Real.sqrt (dotProduct g g)
  fun i => g_hat i * dotProduct g_hat v

/-- `p` is the orthogonal projection of `v` onto the row space of `J`:
it lies in the row space and the residual `v - p` is orthogonal to it
(equivalently, lies in the kernel of `J`). -/
def IsOrthProj {m n : ℕ} (J : Matrix (Fin m) (Fin n) ℝ) (v p : Fin n → ℝ) :
    Prop :=
  (∃ w, p = Jᵀ.mulVec w) ∧ J.mulVec (v - p) = 0

end Thug

/-! ### Concrete instances used by the witnesses -/

/-- A linear one-constraint manifold in the plane: `q(x) = x₀ + x₁`,
constant Jacobian `[1, 1]`, uniform log-density.  The Newton projection is
exact on it, so trajectories converge in zero iterations. -/
def demoManifold : EmbManifold 1 2 where
  q := fun x => some (fun _ => x 0 + x 1)
  J := fun _ => some !![1, 1]
  logη := fun _ => 0

/-- A manifold whose constraint evaluation always raises (`none`): every
projection attempt fails immediately. -/
def qFailManifold : EmbManifold 1 1 where
  q := fun _ => none
  J := fun _ => some !![1]
  logη := fun _ => 0

/-- A one-dimensional manifold with `q(x) = x` and constant Jacobian `[1]`;
calling the projection solver on it with the zero matrix as `Q` produces a
singular Gram matrix on the first pass. -/
def singManifold : EmbManifold 1 1 where
  q := fun x => some (fun _ => x 0)
  J := fun _ => some !![1]
  logη := fun _ => 0

/-- The fixed velocity stream used by the demonstration C-RWM runs:
every draw is the tangent vector `(1, -1)`. -/
def vsDemo : ℕ → Fin 2 → ℚ := fun _ => ![1, -1]

/-- Log-uniform draws making iteration 0 accept (`-1 ≤ 0`) and every later
iteration reject (`1000 > 0`). -/
def loguDemo : ℕ → ℚ := fun i => if i = 0 then -1 else 1000

/-- The initial sampler state of the demonstration C-RWM run on
`demoManifold`. -/
def demoState0 : CRWMState 1 2 :=
  crwmStateAt demoManifold 1 (1 / 1000000) (1 / 100000000) 50 .two 2 1 vsDemo
    loguDemo ![0, 0] !![1, 1] 0

/-- The initial sampler state of a C-RWM run on `qFailManifold` (every
constraint evaluation raises). -/
def qFailState0 : CRWMState 1 1 :=
  crwmStateAt qFailManifold 1 (1 / 2) (1 / 2) 50 .two 1 1 (fun _ _ => 1)
    (fun _ => 0) (fun _ => 0) !![1] 0

/-- A point satisfies the constraint to within the caller-supplied tolerance:
the constraint evaluates without a domain error and its configured norm is
strictly below `tol`. -/
def constraintOK {m nn : ℕ} (M : EmbManifold m nn) (tol : ℚ) (ord : NormOrd)
    (x : Fin nn → ℚ) : Prop :=
  ∃ cv, M.q x = some cv ∧ normGe ord cv tol = false

/-- A point was produced by a run of the Newton projection solver that
reported success: it is `z - Q·a` for some solver call returning `(a, 1, ·)`. -/
def producedByProjection {m nn : ℕ} (M : EmbManifold m nn) (tol : ℚ)
    (maxiter : ℕ) (ord : NormOrd) (x : Fin nn → ℚ) : Prop :=
  ∃ z Q a iters, project_zappa_manifold M z Q tol maxiter ord = (a, true, iters) ∧
    x = z - Q.mulVec a

/-- Master invariant of the Newton projection loop, proved in one induction
on the fuel: (success ⇒ the final coefficients put the point within
tolerance), (failure ⇒ the returned coefficients are the zero vector), and
the Jacobian-evaluation accounting (the successful evaluations exceed the
returned counter by one exactly on the singular-Gram failure branch). -/
theorem projectLoop_spec {m nn : ℕ} (M : EmbManifold m nn) (z : Fin nn → ℚ)
    (Q : Matrix (Fin nn) (Fin m) ℚ) (tol : ℚ) (maxiter : ℕ) (ord : NormOrd) :
    ∀ (fuel : ℕ) (a : Fin m → ℚ) (i : ℕ) (pv : Fin m → ℚ) (jacEvals : ℕ),
      M.q (z - Q.mulVec a) = some pv → jacEvals = i →
      ((projectLoop M z Q tol maxiter ord fuel a i pv jacEvals).flag = true →
        constraintOK M tol ord
          (z - Q.mulVec (projectLoop M z Q tol maxiter ord fuel a i pv jacEvals).a)) ∧
      ((projectLoop M z Q tol maxiter ord fuel a i pv jacEvals).flag = false →
        (projectLoop M z Q tol maxiter ord fuel a i pv jacEvals).a = 0) ∧
      ((projectLoop M z Q tol maxiter ord fuel a i pv jacEvals).jacEvals =
        if (projectLoop M z Q tol maxiter ord fuel a i pv jacEvals).singFail then
          (projectLoop M z Q tol maxiter ord fuel a i pv jacEvals).iters + 1
        else (projectLoop M z Q tol maxiter ord fuel a i pv jacEvals).iters) := by
  intro fuel
  induction fuel with
  | zero =>
    intro a i pv jacEvals hq hji
    refine ⟨?_, ?_, ?_⟩ <;> simp [projectLoop, hji]
  | succ fuel ih =>
    intro a i pv jacEvals hq hji
    by_cases hnorm : normGe ord pv tol = false
    · simp only [projectLoop, if_pos hnorm]
      exact ⟨fun _ => ⟨pv, hq, hnorm⟩, fun h => by simp at h, by simp [hji]⟩
    · simp only [projectLoop, if_neg hnorm]
      cases hJ : M.J (z - Q.mulVec a) with
      | none => exact ⟨fun h => by simp at h, fun _ => by simp, by simp [hji]⟩
      | some Jproj =>
        simp only
        by_cases hdet : (Jproj * Q).det ≠ 0
        · simp only [if_pos hdet]
          by_cases hmax : maxiter < i + 1
          · simp only [if_pos hmax]
            exact ⟨fun h => by simp at h, fun _ => by simp, by simp [hji]⟩
          · simp only [if_neg hmax]
            cases hq' : M.q (z - Q.mulVec (a + npSolve (Jproj * Q) pv)) with
            | none => exact ⟨fun h => by simp at h, fun _ => by simp, by simp [hji]⟩
            | some pv' => exact ih _ _ _ _ hq' (by omega)
        · simp only [if_neg hdet]
          exact ⟨fun h => by simp at h, fun _ => by simp, by simp [hji]⟩

/-- The three invariants of `projectLoop_spec`, at the entry point of
`project_zappa_manifold`. -/
theorem projectZappaAux_spec {m nn : ℕ} (M : EmbManifold m nn)
    (z : Fin nn → ℚ) (Q : Matrix (Fin nn) (Fin m) ℚ) (tol : ℚ) (maxiter : ℕ)
    (ord : NormOrd) :
    ((projectZappaAux M z Q tol maxiter ord).flag = true →
      constraintOK M tol ord (z - Q.mulVec (projectZappaAux M z Q tol maxiter ord).a)) ∧
    ((projectZappaAux M z Q tol maxiter ord).flag = false →
      (projectZappaAux M z Q tol maxiter ord).a = 0) ∧
    ((projectZappaAux M z Q tol maxiter ord).jacEvals =
      if (projectZappaAux M z Q tol maxiter ord).singFail then
        (projectZappaAux M z Q tol maxiter ord).iters + 1
      else (projectZappaAux M z Q tol maxiter ord).iters) := by
  unfold projectZappaAux
  cases hq0 : M.q (z - Q.mulVec 0) with
  | none => exact ⟨fun h => by simp at h, fun _ => by simp, by simp⟩
  | some pv => exact projectLoop_spec M z Q tol maxiter ord (maxiter + 1) 0 0 pv 0 hq0 rfl

/-- **C7** Projection idempotence: for every base point `z` whose constraint
value already satisfies `‖constraint(z)‖ < tol`, `project_zappa_manifold`
returns the all-zero coefficient vector, the success flag, and an iteration
count of 0 (no Newton refinement iterations are performed). -/
theorem projection_idempotence {m nn : ℕ} (M : EmbManifold m nn)
    (z : Fin nn → ℚ) (Q : Matrix (Fin nn) (Fin m) ℚ) (tol : ℚ) (maxiter : ℕ)
    (ord : NormOrd) (cv : Fin m → ℚ) (hq : M.q z = some cv)
    (hnorm : normGe ord cv tol = false) :
    project_zappa_manifold M z Q tol maxiter ord = (0, true, 0) := by
  have hz : z - Q.mulVec (0 : Fin m → ℚ) = z := by simp
  unfold project_zappa_manifold projectZappaAux
  rw [hz, hq]
  simp [projectLoop, hnorm]

unseal Rat.mul Rat.add Rat.sub Rat.inv in
/-- Witness for C7: the origin lies on the `x₀ + x₁ = 0` manifold, and
projecting it moves nothing and iterates zero times. -/
theorem projection_idempotence_witness :
    demoManifold.q ![0, 0] = some (fun _ => 0) ∧
    normGe .two (fun _ => (0 : ℚ) : Fin 1 → ℚ) (1 / 1000000) = false ∧
    project_zappa_manifold demoManifold ![0, 0] (Matrix.transpose !![1, 1])
      (1 / 1000000) 50 .two = (0, true, 0) :=
  ⟨by decide, by decide,
    projection_idempotence demoManifold ![0, 0] (Matrix.transpose !![1, 1])
      (1 / 1000000) 50 .two (fun _ => 0) (by decide) (by decide)⟩

/-- **C8** (amended): the third returned value of `project_zappa_manifold`
equals the number of successful Jacobian evaluations performed — except on
the singular-Gram-matrix failure branch, where one more Jacobian evaluation
was performed than reported. -/
theorem jacobian_evaluation_accounting {m nn : ℕ} (M : EmbManifold m nn)
    (z : Fin nn → ℚ) (Q : Matrix (Fin nn) (Fin m) ℚ) (tol : ℚ) (maxiter : ℕ)
    (ord : NormOrd) :
    project_zappa_manifold M z Q tol maxiter ord =
      ((projectZappaAux M z Q tol maxiter ord).a,
        (projectZappaAux M z Q tol maxiter ord).flag,
        (projectZappaAux M z Q tol maxiter ord).iters) ∧
    (projectZappaAux M z Q tol maxiter ord).jacEvals =
      (if (projectZappaAux M z Q tol maxiter ord).singFail then
        (projectZappaAux M z Q tol maxiter ord).iters + 1
      else (projectZappaAux M z Q tol maxiter ord).iters) :=
  ⟨rfl, (projectZappaAux_spec M z Q tol maxiter ord).2.2⟩

unseal Rat.mul Rat.add Rat.sub Rat.inv in
/-- **C8** counterexample: a first-pass singular Gram matrix.  The solver
performs one successful Jacobian evaluation (`jacEvals = 1`, `singFail`)
yet returns an iteration count of `0`, so the third returned value does
not equal the number of Jacobian evaluations performed. -/
theorem jacobian_evaluation_accounting_cex :
    projectZappaAux singManifold (fun _ => 1) !![0] (1 / 2) 50 .two =
      ⟨0, false, 0, 1, true⟩ ∧
    project_zappa_manifold singManifold (fun _ => 1) !![0] (1 / 2) 50 .two =
      (0, false, 0) := by
  exact ⟨by decide, by decide⟩

/-- **C10** Failure returns zero coefficients: every failure return of
`project_zappa_manifold` (success flag `0`) carries the identically-zero
coefficient vector, so the caller's candidate point `z - Q·a` computed in
`constrained_rwm_step` equals the unprojected displaced point `z`. -/
theorem failure_returns_zero_coefficients {m nn : ℕ} (M : EmbManifold m nn)
    (z : Fin nn → ℚ) (Q : Matrix (Fin nn) (Fin m) ℚ) (tol : ℚ) (maxiter : ℕ)
    (ord : NormOrd) :
    ((project_zappa_manifold M z Q tol maxiter ord).2.1 = false →
      (project_zappa_manifold M z Q tol maxiter ord).1 = 0 ∧
      z - Q.mulVec (project_zappa_manifold M z Q tol maxiter ord).1 = z) ∧
    (∀ (x v : Fin nn → ℚ) (Jx : Matrix (Fin m) (Fin nn) ℚ)
        (Jy : Matrix (Fin m) (Fin nn) ℚ),
      (project_zappa_manifold M (x + (v - linear_project v Jx)) Jxᵀ tol maxiter
          ord).2.1 = false →
      M.J (x + (v - linear_project v Jx)) = some Jy →
      (constrained_rwm_step M x v tol maxiter Jx ord).x =
        x + (v - linear_project v Jx)) := by
  constructor
  · intro hflag
    have ha : (project_zappa_manifold M z Q tol maxiter ord).1 = 0 :=
      (projectZappaAux_spec M z Q tol maxiter ord).2.1 hflag
    exact ⟨ha, by rw [ha]; simp⟩
  · intro x v Jx Jy hflag hJ
    have ha : (project_zappa_manifold M (x + (v - linear_project v Jx)) Jxᵀ tol
        maxiter ord).1 = 0 :=
      (projectZappaAux_spec M _ _ tol maxiter ord).2.1 hflag
    simp only [constrained_rwm_step]
    rw [ha]
    simp only [Matrix.mulVec_zero, sub_zero]
    rw [hJ]

/-- A point produced by a successful Newton projection satisfies the
constraint to within the tolerance (instance of `projectZappaAux_spec`). -/
theorem producedBy_constraintOK {m nn : ℕ} {M : EmbManifold m nn} {tol : ℚ}
    {maxiter : ℕ} {ord : NormOrd} {x : Fin nn → ℚ}
    (hp : producedByProjection M tol maxiter ord x) :
    constraintOK M tol ord x := by
  obtain ⟨z, Q, a, iters, hpz, hx⟩ := hp
  simp only [project_zappa_manifold, Prod.mk.injEq] at hpz
  have h1 := (projectZappaAux_spec M z Q tol maxiter ord).1 hpz.2.1
  rw [hpz.1] at h1
  rw [hx]
  exact h1

/-- A forward RATTLE step that reports convergence lands on a point
produced by a successful Newton projection. -/
theorem step_flag_true_producedBy {m nn : ℕ} (M : EmbManifold m nn)
    (x v : Fin nn → ℚ) (tol : ℚ) (maxiter : ℕ)
    (Jx : Matrix (Fin m) (Fin nn) ℚ) (ord : NormOrd) :
    (constrained_rwm_step M x v tol maxiter Jx ord).flag = true →
    producedByProjection M tol maxiter ord
      (constrained_rwm_step M x v tol maxiter Jx ord).x := by
  intro hf
  simp only [constrained_rwm_step] at hf ⊢
  cases hJ : M.J (x + (v - linear_project v Jx) -
      Jxᵀ.mulVec (project_zappa_manifold M (x + (v - linear_project v Jx)) Jxᵀ
        tol maxiter ord).1) with
  | none => rw [hJ] at hf; simp at hf
  | some Jy =>
    rw [hJ] at hf
    have hf' : (project_zappa_manifold M (x + (v - linear_project v Jx)) Jxᵀ
        tol maxiter ord).2.1 = true := hf
    exact ⟨x + (v - linear_project v Jx), Jxᵀ,
      (project_zappa_manifold M (x + (v - linear_project v Jx)) Jxᵀ tol maxiter ord).1,
      (project_zappa_manifold M (x + (v - linear_project v Jx)) Jxᵀ tol maxiter ord).2.2,
      by rw [← hf'], rfl⟩

/-- When the `B ≥ 1`-step leapfrog loop reports success, its final position
was produced by a successful Newton projection. -/
theorem leapfrogLoop_success_producedBy {m nn : ℕ} (M : EmbManifold m nn)
    (tol rev_tol : ℚ) (maxiter : ℕ) (ord : NormOrd) (x0 v0 : Fin nn → ℚ)
    (J0 : Matrix (Fin m) (Fin nn) ℚ) :
    ∀ (B : ℕ) (x v : Fin nn → ℚ) (J : Matrix (Fin m) (Fin nn) ℚ) (acc : ℕ),
      (leapfrogLoop M tol rev_tol maxiter ord x0 v0 J0 (B + 1) x v J acc).success = true →
      producedByProjection M tol maxiter ord
        (leapfrogLoop M tol rev_tol maxiter ord x0 v0 J0 (B + 1) x v J acc).x := by
  intro B
  induction B with
  | zero =>
    intro x v J acc h
    simp only [leapfrogLoop] at h ⊢
    by_cases hc : (constrained_rwm_step M x v tol maxiter J ord).flag = false ∨
        (constrained_rwm_step M (constrained_rwm_step M x v tol maxiter J ord).x
          (-(constrained_rwm_step M x v tol maxiter J ord).v) tol maxiter
          (constrained_rwm_step M x v tol maxiter J ord).J ord).flag = false ∨
        normGe ord ((constrained_rwm_step M
          (constrained_rwm_step M x v tol maxiter J ord).x
          (-(constrained_rwm_step M x v tol maxiter J ord).v) tol maxiter
          (constrained_rwm_step M x v tol maxiter J ord).J ord).x - x) rev_tol = true
    · rw [if_pos hc] at h; simp at h
    · rw [if_neg hc] at h ⊢
      have hfl : (constrained_rwm_step M x v tol maxiter J ord).flag = true := by
        rcases Bool.eq_false_or_eq_true (constrained_rwm_step M x v tol maxiter J ord).flag
          with h1 | h1
        · exact h1
        · exact absurd (Or.inl h1) hc
      exact step_flag_true_producedBy M x v tol maxiter J ord hfl
  | succ B ih =>
    intro x v J acc h
    simp only [leapfrogLoop] at h ⊢
    by_cases hc : (constrained_rwm_step M x v tol maxiter J ord).flag = false ∨
        (constrained_rwm_step M (constrained_rwm_step M x v tol maxiter J ord).x
          (-(constrained_rwm_step M x v tol maxiter J ord).v) tol maxiter
          (constrained_rwm_step M x v tol maxiter J ord).J ord).flag = false ∨
        normGe ord ((constrained_rwm_step M
          (constrained_rwm_step M x v tol maxiter J ord).x
          (-(constrained_rwm_step M x v tol maxiter J ord).v) tol maxiter
          (constrained_rwm_step M x v tol maxiter J ord).J ord).x - x) rev_tol = true
    · rw [if_pos hc] at h; simp at h
    · rw [if_neg hc] at h ⊢
      exact ih _ _ _ _ h

/-- The check of ConstrainedRWM.py line 78 fails exactly when the forward
step did not converge, or the backward step did not converge, or the
reversibility distance is at least `rev_tol`. -/
theorem lfStepOK_false_iff {m nn : ℕ} (M : EmbManifold m nn) (tol rev_tol : ℚ)
    (maxiter : ℕ) (ord : NormOrd) (x v : Fin nn → ℚ)
    (J : Matrix (Fin m) (Fin nn) ℚ) :
    lfStepOK M tol rev_tol maxiter ord x v J = false ↔
      ((constrained_rwm_step M x v tol maxiter J ord).flag = false ∨
        (constrained_rwm_step M (constrained_rwm_step M x v tol maxiter J ord).x
          (-(constrained_rwm_step M x v tol maxiter J ord).v) tol maxiter
          (constrained_rwm_step M x v tol maxiter J ord).J ord).flag = false ∨
        normGe ord ((constrained_rwm_step M
          (constrained_rwm_step M x v tol maxiter J ord).x
          (-(constrained_rwm_step M x v tol maxiter J ord).v) tol maxiter
          (constrained_rwm_step M x v tol maxiter J ord).J ord).x - x) rev_tol
          = true) := by
  simp only [lfStepOK, decide_eq_false_iff_not, not_not]

/-- Unrolling the leapfrog trajectory by one accepted step. -/
theorem lfTraj_shift {m nn : ℕ} (M : EmbManifold m nn) (tol : ℚ)
    (maxiter : ℕ) (ord : NormOrd) (x v : Fin nn → ℚ)
    (J : Matrix (Fin m) (Fin nn) ℚ) :
    ∀ (k : ℕ), lfTraj M tol maxiter ord x v J (k + 1) =
      lfTraj M tol maxiter ord (lfNext M tol maxiter ord x v J).1
        (lfNext M tol maxiter ord x v J).2.1
        (lfNext M tol maxiter ord x v J).2.2 k := by
  intro k
  induction k with
  | zero => rfl
  | succ k ih =>
    have h1 : lfTraj M tol maxiter ord x v J (k + 1 + 1) =
        lfNext M tol maxiter ord (lfTraj M tol maxiter ord x v J (k + 1)).1
          (lfTraj M tol maxiter ord x v J (k + 1)).2.1
          (lfTraj M tol maxiter ord x v J (k + 1)).2.2 := rfl
    rw [h1, ih]
    rfl

/-- If some iteration of the leapfrog loop fails (all earlier ones having
succeeded), the loop returns the original state with the failure flag. -/
theorem leapfrogLoop_fail {m nn : ℕ} (M : EmbManifold m nn) (tol rev_tol : ℚ)
    (maxiter : ℕ) (ord : NormOrd) (x0 v0 : Fin nn → ℚ)
    (J0 : Matrix (Fin m) (Fin nn) ℚ) :
    ∀ (B : ℕ) (x v : Fin nn → ℚ) (J : Matrix (Fin m) (Fin nn) ℚ) (acc : ℕ)
      (j : ℕ), j < B →
      (∀ k, k < j → lfStepOK M tol rev_tol maxiter ord
        (lfTraj M tol maxiter ord x v J k).1
        (lfTraj M tol maxiter ord x v J k).2.1
        (lfTraj M tol maxiter ord x v J k).2.2 = true) →
      lfStepOK M tol rev_tol maxiter ord (lfTraj M tol maxiter ord x v J j).1
        (lfTraj M tol maxiter ord x v J j).2.1
        (lfTraj M tol maxiter ord x v J j).2.2 = false →
      (leapfrogLoop M tol rev_tol maxiter ord x0 v0 J0 B x v J acc).x = x0 ∧
      (leapfrogLoop M tol rev_tol maxiter ord x0 v0 J0 B x v J acc).v = v0 ∧
      (leapfrogLoop M tol rev_tol maxiter ord x0 v0 J0 B x v J acc).J = J0 ∧
      (leapfrogLoop M tol rev_tol maxiter ord x0 v0 J0 B x v J acc).success
        = false := by
  intro B
  induction B with
  | zero => intro x v J acc j hj _ _; exact absurd hj (Nat.not_lt_zero j)
  | succ B ih =>
    intro x v J acc j hj hbefore hfail
    simp only [leapfrogLoop]
    cases j with
    | zero =>
      simp only [lfTraj] at hfail
      have hc := (lfStepOK_false_iff M tol rev_tol maxiter ord x v J).mp hfail
      rw [if_pos hc]
      exact ⟨rfl, rfl, rfl, rfl⟩
    | succ j =>
      have hok := hbefore 0 (Nat.succ_pos j)
      simp only [lfTraj] at hok
      have hcond : ¬((constrained_rwm_step M x v tol maxiter J ord).flag = false ∨
          (constrained_rwm_step M (constrained_rwm_step M x v tol maxiter J ord).x
            (-(constrained_rwm_step M x v tol maxiter J ord).v) tol maxiter
            (constrained_rwm_step M x v tol maxiter J ord).J ord).flag = false ∨
          normGe ord ((constrained_rwm_step M
            (constrained_rwm_step M x v tol maxiter J ord).x
            (-(constrained_rwm_step M x v tol maxiter J ord).v) tol maxiter
            (constrained_rwm_step M x v tol maxiter J ord).J ord).x - x) rev_tol
            = true) := by
        intro hcond
        have hfalse := (lfStepOK_false_iff M tol rev_tol maxiter ord x v J).mpr hcond
        rw [hfalse] at hok
        exact absurd hok (by simp)
      rw [if_neg hcond]
      refine ih _ _ _ _ j (by omega) ?_ ?_
      · intro k hk
        have h2 := hbefore (k + 1) (by omega)
        rw [lfTraj_shift] at h2
        exact h2
      · have h2 := hfail
        rw [lfTraj_shift] at h2
        exact h2

/-- **C2** All-or-nothing trajectory: for every starting state and every
`B ≥ 1`, if some iteration of `constrained_leapfrog` fails — the forward
step does not converge, or the backward step from `(xf, -vf)` does not
converge, or the reversibility distance is at least `rev_tol` (the three
disjuncts packaged in `lfStepOK`) — then `constrained_leapfrog` returns
exactly the original `(x0, v0, J0)` with the failure flag, discarding all
progress from earlier successful steps. -/
theorem leapfrog_all_or_nothing {m nn : ℕ} (M : EmbManifold m nn)
    (x0 v0 : Fin nn → ℚ) (J0 : Matrix (Fin m) (Fin nn) ℚ) (B : ℕ)
    (tol rev_tol : ℚ) (maxiter : ℕ) (ord : NormOrd) (hB : 1 ≤ B)
    (hfail : ∃ j, j < B ∧
      (∀ k, k < j → lfStepOK M tol rev_tol maxiter ord
        (lfTraj M tol maxiter ord x0 v0 J0 k).1
        (lfTraj M tol maxiter ord x0 v0 J0 k).2.1
        (lfTraj M tol maxiter ord x0 v0 J0 k).2.2 = true) ∧
      lfStepOK M tol rev_tol maxiter ord
        (lfTraj M tol maxiter ord x0 v0 J0 j).1
        (lfTraj M tol maxiter ord x0 v0 J0 j).2.1
        (lfTraj M tol maxiter ord x0 v0 J0 j).2.2 = false) :
    (constrained_leapfrog M x0 v0 J0 B tol rev_tol maxiter ord).x = x0 ∧
    (constrained_leapfrog M x0 v0 J0 B tol rev_tol maxiter ord).v = v0 ∧
    (constrained_leapfrog M x0 v0 J0 B tol rev_tol maxiter ord).J = J0 ∧
    (constrained_leapfrog M x0 v0 J0 B tol rev_tol maxiter ord).success
      = false := by
  obtain ⟨j, hj, hb, hf⟩ := hfail
  exact leapfrogLoop_fail M tol rev_tol maxiter ord x0 v0 J0 B x0 v0 J0 0 j hj hb hf

unseal Rat.mul Rat.add Rat.sub Rat.inv in
/-- Witness for C2: on a manifold whose constraint evaluation always raises
a domain error, the very first leapfrog iteration fails and the loop
returns the original state with the failure flag. -/
theorem leapfrog_all_or_nothing_witness :
    (1 ≤ 1 ∧
      lfStepOK qFailManifold (1 / 2) (1 / 2) 50 .two
        (lfTraj qFailManifold (1 / 2) 50 .two (fun _ => 0) (fun _ => 1) !![1] 0).1
        (lfTraj qFailManifold (1 / 2) 50 .two (fun _ => 0) (fun _ => 1) !![1] 0).2.1
        (lfTraj qFailManifold (1 / 2) 50 .two (fun _ => 0) (fun _ => 1) !![1] 0).2.2
        = false) ∧
    ((constrained_leapfrog qFailManifold (fun _ => 0) (fun _ => 1) !![1] 1
        (1 / 2) (1 / 2) 50 .two).x = (fun _ => 0) ∧
      (constrained_leapfrog qFailManifold (fun _ => 0) (fun _ => 1) !![1] 1
        (1 / 2) (1 / 2) 50 .two).v = (fun _ => 1) ∧
      (constrained_leapfrog qFailManifold (fun _ => 0) (fun _ => 1) !![1] 1
        (1 / 2) (1 / 2) 50 .two).J = !![1] ∧
      (constrained_leapfrog qFailManifold (fun _ => 0) (fun _ => 1) !![1] 1
        (1 / 2) (1 / 2) 50 .two).success = false) :=
  ⟨⟨by decide, by decide⟩,
    leapfrog_all_or_nothing qFailManifold (fun _ => 0) (fun _ => 1) !![1] 1
      (1 / 2) (1 / 2) 50 .two (by decide)
      ⟨0, by decide, fun k hk => absurd hk (Nat.not_lt_zero k), by decide⟩⟩

/-- Along the C-RWM run (with at least one leapfrog step per proposal),
the current state is the initial point or a successfully projected point. -/
theorem crwmStateAt_adherence {m nn : ℕ} (M : EmbManifold m nn) (B : ℕ)
    (tol rev_tol : ℚ) (maxiter : ℕ) (ord : NormOrd) (N : ℕ) (δ : ℚ)
    (vs : ℕ → Fin nn → ℚ) (logu : ℕ → ℚ) (x0 : Fin nn → ℚ)
    (J0 : Matrix (Fin m) (Fin nn) ℚ) (hB : 1 ≤ B) : ∀ (k : ℕ),
    (crwmStateAt M B tol rev_tol maxiter ord N δ vs logu x0 J0 k).x = x0 ∨
      producedByProjection M tol maxiter ord
        (crwmStateAt M B tol rev_tol maxiter ord N δ vs logu x0 J0 k).x := by
  intro k
  induction k with
  | zero => exact Or.inl rfl
  | succ k ih =>
    obtain ⟨B', rfl⟩ : ∃ B', B = B' + 1 := ⟨B - 1, by omega⟩
    simp only [crwmStateAt, crwmIter]
    by_cases hs : (constrained_leapfrog M
        (crwmStateAt M (B' + 1) tol rev_tol maxiter ord N δ vs logu x0 J0 k).x
        (δ • vs k)
        (crwmStateAt M (B' + 1) tol rev_tol maxiter ord N δ vs logu x0 J0 k).Jx
        (B' + 1) tol rev_tol maxiter ord).success = true
    · rw [if_pos hs]
      by_cases hacc : logu k ≤
          M.logη (constrained_leapfrog M
            (crwmStateAt M (B' + 1) tol rev_tol maxiter ord N δ vs logu x0 J0 k).x
            (δ • vs k)
            (crwmStateAt M (B' + 1) tol rev_tol maxiter ord N δ vs logu x0 J0 k).Jx
            (B' + 1) tol rev_tol maxiter ord).x -
          (crwmStateAt M (B' + 1) tol rev_tol maxiter ord N δ vs logu x0 J0 k).logeta_x -
          dotProduct (constrained_leapfrog M
            (crwmStateAt M (B' + 1) tol rev_tol maxiter ord N δ vs logu x0 J0 k).x
            (δ • vs k)
            (crwmStateAt M (B' + 1) tol rev_tol maxiter ord N δ vs logu x0 J0 k).Jx
            (B' + 1) tol rev_tol maxiter ord).v (constrained_leapfrog M
            (crwmStateAt M (B' + 1) tol rev_tol maxiter ord N δ vs logu x0 J0 k).x
            (δ • vs k)
            (crwmStateAt M (B' + 1) tol rev_tol maxiter ord N δ vs logu x0 J0 k).Jx
            (B' + 1) tol rev_tol maxiter ord).v / 2 +
          dotProduct (δ • vs k) (δ • vs k) / 2
      · rw [if_pos hacc]
        exact Or.inr (leapfrogLoop_success_producedBy M tol rev_tol maxiter ord
          _ _ _ B' _ _ _ 0 hs)
      · rw [if_neg hacc]
        exact ih
    · rw [if_neg hs]
      exact ih

/-- **C1** Manifold adherence: whenever `project_zappa_manifold` returns
success flag `1`, the returned coefficients `a` put `z - Q·a` within the
tolerance in the configured norm; and along every C-RWM run every position
retained as the current chain state, the initial point aside, was produced
by a Newton projection that reported success — hence satisfies the
constraint to within the caller-supplied tolerance. -/
theorem manifold_adherence {m nn : ℕ} (M : EmbManifold m nn)
    (tol rev_tol : ℚ) (maxiter : ℕ) (ord : NormOrd) :
    (∀ (z : Fin nn → ℚ) (Q : Matrix (Fin nn) (Fin m) ℚ) (a : Fin m → ℚ)
        (iters : ℕ),
      project_zappa_manifold M z Q tol maxiter ord = (a, true, iters) →
      constraintOK M tol ord (z - Q.mulVec a)) ∧
    (∀ (B N : ℕ) (δ : ℚ) (vs : ℕ → Fin nn → ℚ) (logu : ℕ → ℚ)
        (x0 : Fin nn → ℚ) (J0 : Matrix (Fin m) (Fin nn) ℚ), 1 ≤ B → ∀ (k : ℕ),
      (crwmStateAt M B tol rev_tol maxiter ord N δ vs logu x0 J0 k).x = x0 ∨
        (producedByProjection M tol maxiter ord
            (crwmStateAt M B tol rev_tol maxiter ord N δ vs logu x0 J0 k).x ∧
          constraintOK M tol ord
            (crwmStateAt M B tol rev_tol maxiter ord N δ vs logu x0 J0 k).x)) := by
  constructor
  · intro z Q a iters h
    exact producedBy_constraintOK ⟨z, Q, a, iters, h, rfl⟩
  · intro B N δ vs logu x0 J0 hB k
    rcases crwmStateAt_adherence M B tol rev_tol maxiter ord N δ vs logu x0 J0 hB k
      with h | h
    · exact Or.inl h
    · exact Or.inr ⟨h, producedBy_constraintOK h⟩

unseal Rat.mul Rat.add Rat.sub Rat.inv in
/-- Witness for C1: a successful concrete projection lands within
tolerance, and after one iteration of a concrete C-RWM run the current
state is on the manifold. -/
theorem manifold_adherence_witness :
    project_zappa_manifold demoManifold ![0, 0] (Matrix.transpose !![1, 1])
        (1 / 1000000) 50 .two = (0, true, 0) ∧
    constraintOK demoManifold (1 / 1000000) .two
      (![0, 0] - (Matrix.transpose !![1, 1]).mulVec 0) ∧
    (1 ≤ 1 ∧
      ((crwmStateAt demoManifold 1 (1 / 1000000) (1 / 100000000) 50 .two 2 1
          vsDemo loguDemo ![0, 0] !![1, 1] 1).x = ![0, 0] ∨
        (producedByProjection demoManifold (1 / 1000000) 50 .two
            (crwmStateAt demoManifold 1 (1 / 1000000) (1 / 100000000) 50 .two 2 1
              vsDemo loguDemo ![0, 0] !![1, 1] 1).x ∧
          constraintOK demoManifold (1 / 1000000) .two
            (crwmStateAt demoManifold 1 (1 / 1000000) (1 / 100000000) 50 .two 2 1
              vsDemo loguDemo ![0, 0] !![1, 1] 1).x))) :=
  ⟨by decide,
    (manifold_adherence demoManifold (1 / 1000000) (1 / 100000000) 50 .two).1
      ![0, 0] (Matrix.transpose !![1, 1]) 0 0 (by decide),
    by decide,
    (manifold_adherence demoManifold (1 / 1000000) (1 / 100000000) 50 .two).2
      1 2 1 vsDemo loguDemo ![0, 0] !![1, 1] (by decide) 1⟩

/-- The stored density value always equals the log-density of the current
state, along the whole C-RWM run. -/
theorem crwmStateAt_logeta {m nn : ℕ} (M : EmbManifold m nn) (B : ℕ)
    (tol rev_tol : ℚ) (maxiter : ℕ) (ord : NormOrd) (N : ℕ) (δ : ℚ)
    (vs : ℕ → Fin nn → ℚ) (logu : ℕ → ℚ) (x0 : Fin nn → ℚ)
    (J0 : Matrix (Fin m) (Fin nn) ℚ) : ∀ (k : ℕ),
    (crwmStateAt M B tol rev_tol maxiter ord N δ vs logu x0 J0 k).logeta_x =
      M.logη (crwmStateAt M B tol rev_tol maxiter ord N δ vs logu x0 J0 k).x := by
  intro k
  induction k with
  | zero => rfl
  | succ k ih =>
    simp only [crwmStateAt, crwmIter]
    split
    · split
      · rfl
      · exact ih
    · exact ih

/-- **C3** C-RWM Metropolis rule: in every iteration whose trajectory
succeeds, the proposal is accepted iff the iteration's log-uniform draw is
`≤ logη(xp) - logη(x) - ½‖vp‖² + ½‖v‖²`; on acceptance the position, the
stored density value and the Jacobian are all updated to the proposal's and
the proposal is appended to the chain; on rejection (including trajectory
failure) all three are unchanged and the prior position is appended.  The
stored density value used in the comparison equals `logη` of the current
state along every run (last conjunct). -/
theorem crwm_metropolis_rule {m nn : ℕ} (M : EmbManifold m nn) (B : ℕ)
    (tol rev_tol : ℚ) (maxiter : ℕ) (ord : NormOrd) (N : ℕ) (δ : ℚ)
    (vs : ℕ → Fin nn → ℚ) (logu : ℕ → ℚ) :
    (∀ (i : ℕ) (st : CRWMState m nn), st.logeta_x = M.logη st.x →
      ((constrained_leapfrog M st.x (δ • vs i) st.Jx B tol rev_tol maxiter
          ord).success = true →
        ((logu i ≤
            M.logη (constrained_leapfrog M st.x (δ • vs i) st.Jx B tol rev_tol
              maxiter ord).x - M.logη st.x -
            dotProduct (constrained_leapfrog M st.x (δ • vs i) st.Jx B tol
              rev_tol maxiter ord).v (constrained_leapfrog M st.x (δ • vs i)
              st.Jx B tol rev_tol maxiter ord).v / 2 +
            dotProduct (δ • vs i) (δ • vs i) / 2) →
          ((crwmIter M B tol rev_tol maxiter ord N δ vs logu i st).x =
              (constrained_leapfrog M st.x (δ • vs i) st.Jx B tol rev_tol
                maxiter ord).x ∧
            (crwmIter M B tol rev_tol maxiter ord N δ vs logu i st).logeta_x =
              M.logη (constrained_leapfrog M st.x (δ • vs i) st.Jx B tol
                rev_tol maxiter ord).x ∧
            (crwmIter M B tol rev_tol maxiter ord N δ vs logu i st).Jx =
              (constrained_leapfrog M st.x (δ • vs i) st.Jx B tol rev_tol
                maxiter ord).J ∧
            (crwmIter M B tol rev_tol maxiter ord N δ vs logu i st).samples i =
              (constrained_leapfrog M st.x (δ • vs i) st.Jx B tol rev_tol
                maxiter ord).x ∧
            (crwmIter M B tol rev_tol maxiter ord N δ vs logu i st).accepted
              (accIdx N i) = 1)) ∧
        (¬(logu i ≤
            M.logη (constrained_leapfrog M st.x (δ • vs i) st.Jx B tol rev_tol
              maxiter ord).x - M.logη st.x -
            dotProduct (constrained_leapfrog M st.x (δ • vs i) st.Jx B tol
              rev_tol maxiter ord).v (constrained_leapfrog M st.x (δ • vs i)
              st.Jx B tol rev_tol maxiter ord).v / 2 +
            dotProduct (δ • vs i) (δ • vs i) / 2) →
          ((crwmIter M B tol rev_tol maxiter ord N δ vs logu i st).x = st.x ∧
            (crwmIter M B tol rev_tol maxiter ord N δ vs logu i st).logeta_x =
              st.logeta_x ∧
            (crwmIter M B tol rev_tol maxiter ord N δ vs logu i st).Jx = st.Jx ∧
            (crwmIter M B tol rev_tol maxiter ord N δ vs logu i st).samples i =
              st.x ∧
            (crwmIter M B tol rev_tol maxiter ord N δ vs logu i st).accepted
              (accIdx N i) = 0))) ∧
      ((constrained_leapfrog M st.x (δ • vs i) st.Jx B tol rev_tol maxiter
          ord).success = false →
        ((crwmIter M B tol rev_tol maxiter ord N δ vs logu i st).x = st.x ∧
          (crwmIter M B tol rev_tol maxiter ord N δ vs logu i st).logeta_x =
            st.logeta_x ∧
          (crwmIter M B tol rev_tol maxiter ord N δ vs logu i st).Jx = st.Jx ∧
          (crwmIter M B tol rev_tol maxiter ord N δ vs logu i st).samples i =
            st.x ∧
          (crwmIter M B tol rev_tol maxiter ord N δ vs logu i st).accepted
            (accIdx N i) = 0))) ∧
    (∀ (x0 : Fin nn → ℚ) (J0 : Matrix (Fin m) (Fin nn) ℚ) (k : ℕ),
      (crwmStateAt M B tol rev_tol maxiter ord N δ vs logu x0 J0 k).logeta_x =
        M.logη (crwmStateAt M B tol rev_tol maxiter ord N δ vs logu x0 J0 k).x) := by
  constructor
  · intro i st hinv
    constructor
    · intro hs
      constructor
      · intro hacc
        rw [← hinv] at hacc
        simp only [crwmIter]
        rw [if_pos hs, if_pos hacc]
        exact ⟨rfl, rfl, rfl, Function.update_same i _ _,
          Function.update_same (accIdx N i) _ _⟩
      · intro hacc
        rw [← hinv] at hacc
        simp only [crwmIter]
        rw [if_pos hs, if_neg hacc]
        exact ⟨rfl, rfl, rfl, Function.update_same i _ _,
          Function.update_same (accIdx N i) _ _⟩
    · intro hs
      rw [Bool.eq_false_iff] at hs
      simp only [crwmIter]
      rw [if_neg hs]
      exact ⟨rfl, rfl, rfl, Function.update_same i _ _,
        Function.update_same (accIdx N i) _ _⟩
  · exact crwmStateAt_logeta M B tol rev_tol maxiter ord N δ vs logu

unseal Rat.mul Rat.add Rat.sub Rat.inv in
set_option maxRecDepth 10000 in
/-- Witness for C3: at iteration 0 of the demonstration run the trajectory
succeeds, the log-uniform draw `-1` is below the Metropolis threshold `0`,
and the iteration accepts: position, stored density and Jacobian advance to
the proposal and the proposal is appended. -/
theorem crwm_metropolis_rule_witness :
    demoState0.logeta_x = demoManifold.logη demoState0.x ∧
    (constrained_leapfrog demoManifold demoState0.x ((1 : ℚ) • vsDemo 0)
      demoState0.Jx 1 (1 / 1000000) (1 / 100000000) 50 .two).success = true ∧
    (loguDemo 0 ≤
      demoManifold.logη (constrained_leapfrog demoManifold demoState0.x
        ((1 : ℚ) • vsDemo 0) demoState0.Jx 1 (1 / 1000000) (1 / 100000000) 50
        .two).x - demoManifold.logη demoState0.x -
      dotProduct (constrained_leapfrog demoManifold demoState0.x
        ((1 : ℚ) • vsDemo 0) demoState0.Jx 1 (1 / 1000000) (1 / 100000000) 50
        .two).v (constrained_leapfrog demoManifold demoState0.x
        ((1 : ℚ) • vsDemo 0) demoState0.Jx 1 (1 / 1000000) (1 / 100000000) 50
        .two).v / 2 +
      dotProduct ((1 : ℚ) • vsDemo 0) ((1 : ℚ) • vsDemo 0) / 2) ∧
    ((crwmIter demoManifold 1 (1 / 1000000) (1 / 100000000) 50 .two 2 1 vsDemo
        loguDemo 0 demoState0).x =
      (constrained_leapfrog demoManifold demoState0.x ((1 : ℚ) • vsDemo 0)
        demoState0.Jx 1 (1 / 1000000) (1 / 100000000) 50 .two).x ∧
      (crwmIter demoManifold 1 (1 / 1000000) (1 / 100000000) 50 .two 2 1 vsDemo
        loguDemo 0 demoState0).logeta_x =
      demoManifold.logη (constrained_leapfrog demoManifold demoState0.x
        ((1 : ℚ) • vsDemo 0) demoState0.Jx 1 (1 / 1000000) (1 / 100000000) 50
        .two).x ∧
      (crwmIter demoManifold 1 (1 / 1000000) (1 / 100000000) 50 .two 2 1 vsDemo
        loguDemo 0 demoState0).Jx =
      (constrained_leapfrog demoManifold demoState0.x ((1 : ℚ) • vsDemo 0)
        demoState0.Jx 1 (1 / 1000000) (1 / 100000000) 50 .two).J ∧
      (crwmIter demoManifold 1 (1 / 1000000) (1 / 100000000) 50 .two 2 1 vsDemo
        loguDemo 0 demoState0).samples 0 =
      (constrained_leapfrog demoManifold demoState0.x ((1 : ℚ) • vsDemo 0)
        demoState0.Jx 1 (1 / 1000000) (1 / 100000000) 50 .two).x ∧
      (crwmIter demoManifold 1 (1 / 1000000) (1 / 100000000) 50 .two 2 1 vsDemo
        loguDemo 0 demoState0).accepted (accIdx 2 0) = 1) :=
  ⟨by decide, by decide, by decide,
    (((crwm_metropolis_rule demoManifold 1 (1 / 1000000) (1 / 100000000) 50
        .two 2 1 vsDemo loguDemo).1 0 demoState0 (by decide)).1
      (by decide)).1 (by decide)⟩

unseal Rat.mul Rat.add Rat.sub Rat.inv in
set_option maxRecDepth 10000 in
/-- **C4** The acceptance record is misaligned with the chain: in a
two-iteration run on `demoManifold` where iteration 0 accepts (the chain
state advances to the proposal `(1, -1)` and row 0 holds it) and iteration
1 rejects, the acceptance flag of iteration 0 is written at index
`(0 - 1) mod 2 = 1` (numpy `ACCEPTED[-1]`) and the flag of iteration 1 at
index 0 — not at the iteration's own index as the claim states. -/
theorem acceptance_record_misalignment :
    accIdx 2 0 = 1 ∧ accIdx 2 1 = 0 ∧
    (crwmStateAt demoManifold 1 (1 / 1000000) (1 / 100000000) 50 .two 2 1
      vsDemo loguDemo ![0, 0] !![1, 1] 1).x = ![1, -1] ∧
    (crwmStateAt demoManifold 1 (1 / 1000000) (1 / 100000000) 50 .two 2 1
      vsDemo loguDemo ![0, 0] !![1, 1] 1).samples 0 = ![1, -1] ∧
    (crwmStateAt demoManifold 1 (1 / 1000000) (1 / 100000000) 50 .two 2 1
      vsDemo loguDemo ![0, 0] !![1, 1] 1).accepted 0 = 0 ∧
    (crwmStateAt demoManifold 1 (1 / 1000000) (1 / 100000000) 50 .two 2 1
      vsDemo loguDemo ![0, 0] !![1, 1] 1).accepted 1 = 1 ∧
    (crwmStateAt demoManifold 1 (1 / 1000000) (1 / 100000000) 50 .two 2 1
      vsDemo loguDemo ![0, 0] !![1, 1] 2).accepted 0 = 0 ∧
    (crwmStateAt demoManifold 1 (1 / 1000000) (1 / 100000000) 50 .two 2 1
      vsDemo loguDemo ![0, 0] !![1, 1] 2).accepted 1 = 1 ∧
    (crwmStateAt demoManifold 1 (1 / 1000000) (1 / 100000000) 50 .two 2 1
      vsDemo loguDemo ![0, 0] !![1, 1] 2).samples 1 = ![1, -1] := by
  exact ⟨by decide, by decide, by decide, by decide, by decide, by decide,
    by decide, by decide, by decide⟩

/-- **C5** (amended): in the C-RWM sampler a trajectory failure — the local
signal produced by constraint/Jacobian domain errors inside an iteration —
degrades to a rejection (current position, stored density and Jacobian
untouched, the current position appended to the chain, flag 0), and every
iteration writes its chain row, so the run always returns a full-length
chain.  In THUG, by contrast, a safe-mode Jacobian error is caught nowhere:
it aborts the entire run and no chain is returned. -/
theorem failure_degrades_to_rejection {m nn : ℕ} (M : EmbManifold m nn)
    (B : ℕ) (tol rev_tol : ℚ) (maxiter : ℕ) (ord : NormOrd) (N : ℕ) (δ : ℚ)
    (vs : ℕ → Fin nn → ℚ) (logu : ℕ → ℚ) :
    (∀ (i : ℕ) (st : CRWMState m nn),
      (constrained_leapfrog M st.x (δ • vs i) st.Jx B tol rev_tol maxiter
        ord).success = false →
      ((crwmIter M B tol rev_tol maxiter ord N δ vs logu i st).x = st.x ∧
        (crwmIter M B tol rev_tol maxiter ord N δ vs logu i st).logeta_x =
          st.logeta_x ∧
        (crwmIter M B tol rev_tol maxiter ord N δ vs logu i st).Jx = st.Jx ∧
        (crwmIter M B tol rev_tol maxiter ord N δ vs logu i st).samples i =
          st.x ∧
        (crwmIter M B tol rev_tol maxiter ord N δ vs logu i st).accepted
          (accIdx N i) = 0)) ∧
    (∀ (x0 : Fin nn → ℚ) (J0 : Matrix (Fin m) (Fin nn) ℚ) (k : ℕ),
      (crwmStateAt M B tol rev_tol maxiter ord N δ vs logu x0 J0 (k + 1)).samples
        k = (crwmStateAt M B tol rev_tol maxiter ord N δ vs logu x0 J0 (k + 1)).x) ∧
    (∀ (T : ℚ) (Bt Nt : ℕ) (α : ℚ) (logpi : (Fin nn → ℚ) → ℚ)
        (jac : (Fin nn → ℚ) → Option (Matrix (Fin m) (Fin nn) ℚ))
        (project : (Fin nn → ℚ) → Matrix (Fin m) (Fin nn) ℚ → (Fin nn → ℚ))
        (C : ℚ) (vsT : ℕ → Fin nn → ℚ) (usT : ℕ → ℚ) (x0 : Fin nn → ℚ),
      1 ≤ Nt → jac x0 = none →
      THUG x0 T Bt Nt α logpi jac project C vsT usT = none) := by
  refine ⟨?_, ?_, ?_⟩
  · intro i st hs
    rw [Bool.eq_false_iff] at hs
    simp only [crwmIter]
    rw [if_neg hs]
    exact ⟨rfl, rfl, rfl, Function.update_same i _ _,
      Function.update_same (accIdx N i) _ _⟩
  · intro x0 J0 k
    simp only [crwmStateAt, crwmIter]
    split
    · split
      · exact Function.update_same k _ _
      · exact Function.update_same k _ _
    · exact Function.update_same k _ _
  · intro T Bt Nt α logpi jac project C vsT usT x0 hNt hjac
    obtain ⟨Nt', rfl⟩ : ∃ n, Nt = n + 1 := ⟨Nt - 1, by omega⟩
    simp [THUG, thugRun, thugIter, hjac]

/-- **C5** counterexample: a THUG run in safe mode whose very first
Jacobian evaluation raises terminates the whole run with the uncaught
error — no full-length chain is returned, contradicting the claim that a
domain error never terminates the sampling run. -/
theorem failure_degrades_to_rejection_cex :
    THUG (fun _ => (0 : ℚ) : Fin 1 → ℚ) 1 1 1 0 (fun _ => 0)
      (fun _ => (none : Option (Matrix (Fin 1) (Fin 1) ℚ))) (fun v _ => v) 0
      (fun _ _ => 0) (fun _ => 0) = none := rfl

unseal Rat.mul Rat.add Rat.sub Rat.inv in
/-- Witness for C5: a concrete C-RWM iteration whose trajectory fails
(every constraint evaluation raises) rejects and leaves the state
untouched, while a concrete THUG run with a failing Jacobian returns no
chain. -/
theorem failure_degrades_to_rejection_witness :
    (constrained_leapfrog qFailManifold qFailState0.x
      ((1 : ℚ) • (fun _ => 1 : Fin 1 → ℚ)) qFailState0.Jx 1 (1 / 2) (1 / 2) 50
      .two).success = false ∧
    ((crwmIter qFailManifold 1 (1 / 2) (1 / 2) 50 .two 1 1 (fun _ _ => 1)
        (fun _ => 0) 0 qFailState0).x = qFailState0.x ∧
      (crwmIter qFailManifold 1 (1 / 2) (1 / 2) 50 .two 1 1 (fun _ _ => 1)
        (fun _ => 0) 0 qFailState0).logeta_x = qFailState0.logeta_x ∧
      (crwmIter qFailManifold 1 (1 / 2) (1 / 2) 50 .two 1 1 (fun _ _ => 1)
        (fun _ => 0) 0 qFailState0).Jx = qFailState0.Jx ∧
      (crwmIter qFailManifold 1 (1 / 2) (1 / 2) 50 .two 1 1 (fun _ _ => 1)
        (fun _ => 0) 0 qFailState0).samples 0 = qFailState0.x ∧
      (crwmIter qFailManifold 1 (1 / 2) (1 / 2) 50 .two 1 1 (fun _ _ => 1)
        (fun _ => 0) 0 qFailState0).accepted (accIdx 1 0) = 0) ∧
    ((1 : ℕ) ≤ 1 ∧
      (fun _ => (none : Option (Matrix (Fin 1) (Fin 1) ℚ)))
        (fun _ => (0 : ℚ) : Fin 1 → ℚ) = none ∧
      THUG (fun _ => (0 : ℚ) : Fin 1 → ℚ) 1 1 1 0 (fun _ => 0)
        (fun _ => (none : Option (Matrix (Fin 1) (Fin 1) ℚ))) (fun v _ => v) 0
        (fun _ _ => 0) (fun _ => 0) = none) :=
  ⟨by decide,
    (failure_degrades_to_rejection qFailManifold 1 (1 / 2) (1 / 2) 50 .two 1 1
      (fun _ _ => 1) (fun _ => 0)).1 0 qFailState0 (by decide),
    by decide,
    rfl,
    (failure_degrades_to_rejection qFailManifold 1 (1 / 2) (1 / 2) 50 .two 1 1
      (fun _ _ => 1) (fun _ => 0)).2.2 1 1 1 0 (fun _ => 0)
      (fun _ => (none : Option (Matrix (Fin 1) (Fin 1) ℚ))) (fun v _ => v) 0
      (fun _ _ => 0) (fun _ => 0) (fun _ => (0 : ℚ)) (by decide) rfl⟩

/-- **C9** THUG degenerate squeeze: with `α = 0` the squeeze leaves the
drawn velocity unchanged, the unsqueeze leaves the post-bounce velocity
unchanged, and the whole iteration coincides with the bare
bounce-reflection integrator applied to the raw Gaussian draw. -/
theorem thug_degenerate_squeeze {m nn : ℕ} (T : ℚ) (B : ℕ)
    (logpi : (Fin nn → ℚ) → ℚ)
    (jac : (Fin nn → ℚ) → Option (Matrix (Fin m) (Fin nn) ℚ))
    (project : (Fin nn → ℚ) → Matrix (Fin m) (Fin nn) ℚ → (Fin nn → ℚ))
    (C : ℚ) (v0s : Fin nn → ℚ) (logu : ℚ) (x0 : Fin nn → ℚ) :
    (∀ (v : Fin nn → ℚ) (J : Matrix (Fin m) (Fin nn) ℚ),
      squeeze 0 project v J = v) ∧
    (∀ (v : Fin nn → ℚ) (J : Matrix (Fin m) (Fin nn) ℚ),
      unsqueeze 0 project v J = v) ∧
    thugIter T B 0 logpi jac project C v0s logu x0 =
      thugIterBounceOnly T B logpi jac project C v0s logu x0 := by
  have hsq : ∀ (v : Fin nn → ℚ) (J : Matrix (Fin m) (Fin nn) ℚ),
      squeeze 0 project v J = v := by
    intro v J; simp [squeeze]
  have hun : ∀ (v : Fin nn → ℚ) (J : Matrix (Fin m) (Fin nn) ℚ),
      unsqueeze 0 project v J = v := by
    intro v J; simp [unsqueeze]
  refine ⟨hsq, hun, ?_⟩
  simp only [thugIter, thugIterBounceOnly, hsq, hun]

unseal Rat.mul Rat.add Rat.sub Rat.inv in
/-- Witness for C10: a projection that fails on a singular Gram matrix
returns zero coefficients, and the step's candidate point is the
unprojected displaced point. -/
theorem failure_returns_zero_coefficients_witness :
    (project_zappa_manifold singManifold
        ((fun _ => 0) + ((fun _ => 1) - linear_project (fun _ => 1) !![0]))
        (!![0])ᵀ (1 / 2) 50 .two).2.1 = false ∧
    singManifold.J ((fun _ => 0) + ((fun _ => 1) - linear_project (fun _ => 1) !![0]))
      = some !![1] ∧
    (constrained_rwm_step singManifold (fun _ => 0) (fun _ => 1) (1 / 2) 50
        !![0] .two).x =
      (fun _ => 0) + ((fun _ => 1) - linear_project (fun _ => 1) !![0]) :=
  ⟨by decide, by decide,
    (failure_returns_zero_coefficients singManifold
        ((fun _ => 0) + ((fun _ => 1) - linear_project (fun _ => 1) !![0]))
        (!![0])ᵀ (1 / 2) 50 .two).2
      (fun _ => 0) (fun _ => 1) !![0] !![1] (by decide) (by decide)⟩

namespace Thug

/-- Orthogonal projections onto the row space are unique: two vectors that
both lie in the row space and leave residuals in the kernel of `J`
coincide. -/
theorem isOrthProj_unique {m n : ℕ} (J : Matrix (Fin m) (Fin n) ℝ)
    (v p1 p2 : Fin n → ℝ) (h1 : IsOrthProj J v p1) (h2 : IsOrthProj J v p2) :
    p1 = p2 := by
  obtain ⟨⟨w1, hw1⟩, ho1⟩ := h1
  obtain ⟨⟨w2, hw2⟩, ho2⟩ := h2
  have hd : J.mulVec (p1 - p2) = 0 := by
    have h3 : p1 - p2 = (v - p2) - (v - p1) := by abel
    rw [h3, Matrix.mulVec_sub, ho1, ho2]
    simp
  have h4 : p1 - p2 = Jᵀ.mulVec (w1 - w2) := by
    rw [hw1, hw2, ← Matrix.mulVec_sub]
  have hdot : dotProduct (p1 - p2) (p1 - p2) = 0 := by
    calc dotProduct (p1 - p2) (p1 - p2)
        = dotProduct (Jᵀ.mulVec (w1 - w2)) (p1 - p2) := by rw [← h4]
      _ = dotProduct ((w1 - w2) ᵥ* J) (p1 - p2) := by rw [Matrix.mulVec_transpose]
      _ = dotProduct (w1 - w2) (J.mulVec (p1 - p2)) :=
          (Matrix.dotProduct_mulVec _ _ _).symm
      _ = 0 := by rw [hd, Matrix.dotProduct_zero]
  exact sub_eq_zero.mp (Matrix.dotProduct_self_eq_zero.mp hdot)

/-- `linear_project` is the orthogonal projection onto the row space of a
full-row-rank `J`. -/
theorem linear_project_isOrthProj {m n : ℕ} (J : Matrix (Fin m) (Fin n) ℝ)
    (v : Fin n → ℝ) (hdet : IsUnit (J * Jᵀ).det) :
    IsOrthProj J v (linear_project v J) := by
  refine ⟨⟨npSolveR (J * Jᵀ) (J.mulVec v), rfl⟩, ?_⟩
  rw [Matrix.mulVec_sub]
  have h1 : J.mulVec (linear_project v J) = J.mulVec v := by
    simp only [linear_project, npSolveR, Matrix.mulVec_mulVec]
    have hM : J * (Jᵀ * ((J * Jᵀ)⁻¹ * J)) = J := by
      rw [← Matrix.mul_assoc, ← Matrix.mul_assoc,
        Matrix.mul_nonsing_inv _ hdet, Matrix.one_mul]
    rw [hM]
  rw [h1, sub_self]

/-- `qr_project` with a QR factor of `Jᵀ` is the same orthogonal
projection. -/
theorem qr_project_isOrthProj {m n : ℕ} (J : Matrix (Fin m) (Fin n) ℝ)
    (v : Fin n → ℝ) (Q : Matrix (Fin n) (Fin m) ℝ)
    (R : Matrix (Fin m) (Fin m) ℝ) (hdet : IsUnit (J * Jᵀ).det)
    (hFact : Jᵀ = Q * R) (hOrth : Qᵀ * Q = 1) :
    IsOrthProj J v (qr_project v Q) := by
  have hJ : J = Rᵀ * Qᵀ := by
    have h0 := congrArg Matrix.transpose hFact
    rwa [Matrix.transpose_transpose, Matrix.transpose_mul] at h0
  have hRR : J * Jᵀ = Rᵀ * R := by
    rw [hFact, hJ, Matrix.mul_assoc, ← Matrix.mul_assoc Qᵀ Q R, hOrth,
      Matrix.one_mul]
  have hdR : IsUnit R.det := by
    have h5 : (J * Jᵀ).det = R.det * R.det := by
      rw [hRR, Matrix.det_mul, Matrix.det_transpose]
    rw [h5] at hdet
    exact isUnit_of_mul_isUnit_left hdet
  constructor
  · refine ⟨R⁻¹.mulVec (Qᵀ.mulVec v), ?_⟩
    have h6 : Q * R * R⁻¹ = Q := by
      rw [Matrix.mul_assoc, Matrix.mul_nonsing_inv _ hdR, Matrix.mul_one]
    rw [hFact, Matrix.mulVec_mulVec, h6]
    rfl
  · rw [hJ, Matrix.mulVec_sub]
    have h7 : (Rᵀ * Qᵀ).mulVec (qr_project v Q) = (Rᵀ * Qᵀ).mulVec v := by
      show (Rᵀ * Qᵀ).mulVec (Q.mulVec (Qᵀ.mulVec v)) = (Rᵀ * Qᵀ).mulVec v
      simp only [Matrix.mulVec_mulVec]
      have hM2 : Rᵀ * Qᵀ * (Q * Qᵀ) = Rᵀ * Qᵀ := by
        rw [← Matrix.mul_assoc, Matrix.mul_assoc Rᵀ Qᵀ Q, hOrth,
          Matrix.mul_one]
      rw [hM2]
    rw [h7, sub_self]

/-- `lstsq_project` with a least-squares solution of `Jᵀ w ≈ v` (normal
equations) is the same orthogonal projection. -/
theorem lstsq_project_isOrthProj {m n : ℕ} (J : Matrix (Fin m) (Fin n) ℝ)
    (v : Fin n → ℝ) (w : Fin m → ℝ)
    (hw : J.mulVec (Jᵀ.mulVec w) = J.mulVec v) :
    IsOrthProj J v (lstsq_project w J) :=
  ⟨⟨w, rfl⟩, by rw [Matrix.mulVec_sub, lstsq_project, hw, sub_self]⟩

/-- `project_2d` in closed form: the square root in the normalisation
cancels, leaving `((g·v)/(g·g)) g`. -/
theorem project_2d_eq {n : ℕ} (g v : Fin n → ℝ) (hg : g ≠ 0) :
    project_2d v g = (dotProduct g v / dotProduct g g) • g := by
  have hnn : 0 ≤ dotProduct g g :=
    Finset.sum_nonneg fun i _ => mul_self_nonneg (g i)
  have hne : dotProduct g g ≠ 0 := fun h =>
    hg (Matrix.dotProduct_self_eq_zero.mp h)
  have hs : Real.sqrt (dotProduct g g) ≠ 0 :=
    Real.sqrt_ne_zero'.mpr (lt_of_le_of_ne hnn (Ne.symm hne))
  have hss : Real.sqrt (dotProduct g g) * Real.sqrt (dotProduct g g) =
      dotProduct g g := Real.mul_self_sqrt hnn
  funext i
  simp only [project_2d]
  have hdv : dotProduct (fun j => g j / Real.sqrt (dotProduct g g)) v =
      dotProduct g v / Real.sqrt (dotProduct g g) := by
    simp [dotProduct, div_mul_eq_mul_div, ← Finset.sum_div]
  rw [hdv, div_mul_div_comm, hss, Pi.smul_apply, smul_eq_mul]
  ring

/-- `project_2d` is the orthogonal projection for the single-row Jacobian
built from a nonzero gradient `g`. -/
theorem project_2d_isOrthProj {n : ℕ} (g v : Fin n → ℝ) (hg : g ≠ 0) :
    IsOrthProj (Matrix.of fun _ j => g j : Matrix (Fin 1) (Fin n) ℝ) v
      (project_2d v g) := by
  have hne : dotProduct g g ≠ 0 := fun h =>
    hg (Matrix.dotProduct_self_eq_zero.mp h)
  rw [project_2d_eq g v hg]
  constructor
  · refine ⟨fun _ => dotProduct g v / dotProduct g g, ?_⟩
    funext i
    simp [Matrix.mulVec, dotProduct, Fin.sum_univ_one, Matrix.transpose_apply,
      Matrix.of_apply, mul_comm]
  · funext u
    show dotProduct (fun j => g j)
      (v - (dotProduct g v / dotProduct g g) • g) = 0
    rw [Matrix.dotProduct_sub]
    have h8 : dotProduct (fun j => g j) ((dotProduct g v / dotProduct g g) • g)
        = dotProduct g v := by
      rw [Matrix.dotProduct_smul]
      show dotProduct g v / dotProduct g g * dotProduct g g = dotProduct g v
      rw [div_mul_cancel₀ _ hne]
    rw [h8]
    show dotProduct g v - dotProduct g v = 0
    rw [sub_self]

end Thug

/-- **C6** Projector equivalence: for a full-row-rank Jacobian `J` (the
Gram matrix `J Jᵀ` has unit determinant), with `Q, R` the economic QR
factorisation of `Jᵀ` and `w` a least-squares solution of `Jᵀ w ≈ v`
(normal equations), `qr_project`, `linear_project` and `lstsq_project`
compute the same vector over exact real arithmetic; and for a single
nonzero row `g`, `project_2d` computes the same projection. -/
theorem projector_equivalence {m n : ℕ} (J : Matrix (Fin m) (Fin n) ℝ)
    (v : Fin n → ℝ) (Q : Matrix (Fin n) (Fin m) ℝ)
    (R : Matrix (Fin m) (Fin m) ℝ) (w : Fin m → ℝ)
    (hdet : IsUnit (J * Jᵀ).det) (hFact : Jᵀ = Q * R) (hOrth : Qᵀ * Q = 1)
    (hw : J.mulVec (Jᵀ.mulVec w) = J.mulVec v) :
    (Thug.qr_project v Q = Thug.linear_project v J ∧
      Thug.lstsq_project w J = Thug.linear_project v J) ∧
    (∀ (g : Fin n → ℝ), g ≠ 0 →
      Thug.project_2d v g =
        Thug.linear_project v
          (Matrix.of fun _ j => g j : Matrix (Fin 1) (Fin n) ℝ)) := by
  refine ⟨⟨?_, ?_⟩, ?_⟩
  · exact Thug.isOrthProj_unique J v _ _
      (Thug.qr_project_isOrthProj J v Q R hdet hFact hOrth)
      (Thug.linear_project_isOrthProj J v hdet)
  · exact Thug.isOrthProj_unique J v _ _
      (Thug.lstsq_project_isOrthProj J v w hw)
      (Thug.linear_project_isOrthProj J v hdet)
  · intro g hg
    have hne : dotProduct g g ≠ 0 := fun h =>
      hg (Matrix.dotProduct_self_eq_zero.mp h)
    have hdet1 : IsUnit ((Matrix.of fun _ j => g j : Matrix (Fin 1) (Fin n) ℝ) *
        (Matrix.of fun _ j => g j : Matrix (Fin 1) (Fin n) ℝ)ᵀ).det := by
      rw [Matrix.det_fin_one]
      refine isUnit_iff_ne_zero.mpr ?_
      show dotProduct (fun j => g j) (fun j => g j) ≠ 0
      exact hne
    exact Thug.isOrthProj_unique _ v _ _
      (Thug.project_2d_isOrthProj g v hg)
      (Thug.linear_project_isOrthProj _ v hdet1)


/-- Witness for C6: at `J = [3 4]`, `v = (1, 2)`, with QR factor
`Q = (3/5, 4/5)ᵀ`, `R = [5]`, least-squares solution `w = (11/25)` and the
single row `g = (3, 4)`, all four projectors agree. -/
theorem projector_equivalence_witness :
    IsUnit ((!![(3 : ℝ), 4] * (!![(3 : ℝ), 4])ᵀ)).det ∧
    (!![(3 : ℝ), 4])ᵀ = !![(3 : ℝ) / 5; (4 : ℝ) / 5] * !![(5 : ℝ)] ∧
    (!![(3 : ℝ) / 5; (4 : ℝ) / 5])ᵀ * !![(3 : ℝ) / 5; (4 : ℝ) / 5] = 1 ∧
    (!![(3 : ℝ), 4]).mulVec ((!![(3 : ℝ), 4])ᵀ.mulVec ![11 / 25]) =
      (!![(3 : ℝ), 4]).mulVec ![1, 2] ∧
    (![(3 : ℝ), 4] : Fin 2 → ℝ) ≠ 0 ∧
    ((Thug.qr_project ![1, 2] !![(3 : ℝ) / 5; (4 : ℝ) / 5] =
        Thug.linear_project ![1, 2] !![(3 : ℝ), 4] ∧
      Thug.lstsq_project ![11 / 25] !![(3 : ℝ), 4] =
        Thug.linear_project ![1, 2] !![(3 : ℝ), 4]) ∧
      Thug.project_2d ![1, 2] ![(3 : ℝ), 4] =
        Thug.linear_project ![1, 2]
          (Matrix.of fun _ j => (![(3 : ℝ), 4] : Fin 2 → ℝ) j :
            Matrix (Fin 1) (Fin 2) ℝ)) := by
  have hdet : IsUnit ((!![(3 : ℝ), 4] * (!![(3 : ℝ), 4])ᵀ)).det := by
    have hd : ((!![(3 : ℝ), 4] * (!![(3 : ℝ), 4])ᵀ)).det = 25 := by
      norm_num [Matrix.det_fin_one, Matrix.mul_apply, Fin.sum_univ_two,
        Matrix.transpose_apply, Matrix.vecHead, Matrix.vecTail]
    rw [hd]
    norm_num
  have hFact : (!![(3 : ℝ), 4])ᵀ = !![(3 : ℝ) / 5; (4 : ℝ) / 5] * !![(5 : ℝ)] := by
    ext i j
    fin_cases i <;> fin_cases j <;>
      norm_num [Matrix.mul_apply, Fin.sum_univ_one, Matrix.transpose_apply,
        Matrix.vecHead, Matrix.vecTail]
  have hOrth : (!![(3 : ℝ) / 5; (4 : ℝ) / 5])ᵀ * !![(3 : ℝ) / 5; (4 : ℝ) / 5]
      = 1 := by
    ext i j
    fin_cases i <;> fin_cases j <;>
      norm_num [Matrix.mul_apply, Fin.sum_univ_two, Matrix.one_apply,
        Matrix.transpose_apply, Matrix.vecHead, Matrix.vecTail]
  have hw : (!![(3 : ℝ), 4]).mulVec ((!![(3 : ℝ), 4])ᵀ.mulVec ![11 / 25]) =
      (!![(3 : ℝ), 4]).mulVec ![1, 2] := by
    funext u
    fin_cases u
    norm_num [Matrix.mulVec, dotProduct, Fin.sum_univ_two, Fin.sum_univ_one,
      Matrix.transpose_apply, Matrix.vecHead, Matrix.vecTail]
  have hg : (![(3 : ℝ), 4] : Fin 2 → ℝ) ≠ 0 := by
    intro h
    have h0 := congrFun h 0
    simp at h0
  exact ⟨hdet, hFact, hOrth, hw, hg,
    (projector_equivalence !![(3 : ℝ), 4] ![1, 2] !![(3 : ℝ) / 5; (4 : ℝ) / 5]
      !![(5 : ℝ)] ![11 / 25] hdet hFact hOrth hw).1,
    (projector_equivalence !![(3 : ℝ), 4] ![1, 2] !![(3 : ℝ) / 5; (4 : ℝ) / 5]
      !![(5 : ℝ)] ![11 / 25] hdet hFact hOrth hw).2 ![(3 : ℝ), 4] hg⟩

end AMS
